import Mathlib

set_option autoImplicit false

/-!
Verification of the reactive `Store` layer of the meerkat interactive graph
engine, embedded shallowly from `src/meerkat/interactive/graph/store.py`.

The object model mirrors the Python value universe that the claims range
over: scalars (`None`, `int`, `bool`, `str`), containers (`list`, `tuple`,
`dict`), and `Store` proxy objects.  A `Store` appearing inside an argument
tree is represented by the constructor `Obj.store sid w` carrying its
identifier and (a snapshot of) its wrapped value.  Directly nesting a
`Store` inside another `Store` is outside the object model: `Store.set`
unwraps store arguments and `make_store` never re-wraps a store, so such
objects arise only from explicit constructor nesting, which no claim
exercises.  Python `dict`s are modelled as insertion-ordered association
lists (CPython dicts preserve insertion order).
-/

namespace MeerkatStore

mutual

/-- Raw (non-Store) Python values of the model: scalars and containers.
Container elements are full objects, so a `Store` may sit inside a plain
container, matching the argument trees fed to the unpacker. -/
inductive NObj : Type where
  | pynone : NObj
  | int (n : Int) : NObj
  | bool (b : Bool) : NObj
  | str (s : String) : NObj
  | list (xs : List Obj) : NObj
  | tuple (xs : List Obj) : NObj
  | dict (kvs : List (Obj × Obj)) : NObj

/-- An object is either a raw value or a `Store` proxy wrapping a raw value.
The `sid` field is the store's identifier (assigned by the identifiable
mixin); `wrapped` is its current wrapped value. -/
inductive Obj : Type where
  | plain (v : NObj) : Obj
  | store (sid : Nat) (wrapped : NObj) : Obj

end

/-- Identifier of a Store (the NodeId of the spec's data model). -/
abbrev StoreId := Nat

/-- A Store as recorded in the dependency list returned by the unpacker:
its identifier together with the wrapped value it held when encountered. -/
abbrev Sto := StoreId × NObj

mutual

/-- Embedding of `_unpack_stores_from_object` (store.py lines 521-580) on
objects.  With `unpack_nested = false` a `Store` argument returns early as
`(obj.value, [obj])` (line 544).  With `unpack_nested = true`, `wrapt`
object proxies are transparent to `isinstance`, so a `Store` wrapping a
`list`/`tuple`/`dict` takes the corresponding container branch: its
elements are unpacked, the container is rebuilt with
`_type = type(obj.value)` (lines 547-549), and the store itself is appended
to the collected list (lines 559-560, 573-574); a `Store` wrapping a scalar
reaches the final `isinstance(obj, Store)` branch (lines 577-578).  The
`no_react()` block of the source only suppresses reactive interception of
the container walk and has no effect on the returned data, so it has no
counterpart here. -/
def unpackObj (unpack_nested : Bool) : Obj → Obj × List Sto
  | .plain v => unpackNVal unpack_nested v
  | .store sid w =>
    if unpack_nested then
      match w with
      | .list xs =>
        let p := unpackList unpack_nested xs
        (.plain (.list p.1), p.2 ++ [(sid, w)])
      | .tuple xs =>
        let p := unpackList unpack_nested xs
        (.plain (.tuple p.1), p.2 ++ [(sid, w)])
      | .dict kvs =>
        let p := unpackDict unpack_nested kvs
        (.plain (.dict p.1), p.2 ++ [(sid, w)])
      | w' => (.plain w', [(sid, w')])
    else (.plain w, [(sid, w)])

/-- Unpacking of a raw value: containers are walked element-wise and
rebuilt (lines 551-576); scalars fall through unchanged (line 580). -/
def unpackNVal (unpack_nested : Bool) : NObj → Obj × List Sto
  | .list xs =>
    let p := unpackList unpack_nested xs
    (.plain (.list p.1), p.2)
  | .tuple xs =>
    let p := unpackList unpack_nested xs
    (.plain (.tuple p.1), p.2)
  | .dict kvs =>
    let p := unpackDict unpack_nested kvs
    (.plain (.dict p.1), p.2)
  | v => (.plain v, [])

/-- Element-wise walk of a sequence (lines 552-557): each element is
unpacked in order and the collected stores are concatenated. -/
def unpackList (unpack_nested : Bool) : List Obj → List Obj × List Sto
  | [] => ([], [])
  | x :: xs =>
    let p := unpackObj unpack_nested x
    let q := unpackList unpack_nested xs
    (p.1 :: q.1, p.2 ++ q.2)

/-- Entry-wise walk of a mapping (lines 564-571): both the key and the
value of each entry are unpacked, key first, in insertion order. -/
def unpackDict (unpack_nested : Bool) : List (Obj × Obj) → List (Obj × Obj) × List Sto
  | [] => ([], [])
  | (k, v) :: rest =>
    let pk := unpackObj unpack_nested k
    let pv := unpackObj unpack_nested v
    let q := unpackDict unpack_nested rest
    ((pk.1, pv.1) :: q.1, pk.2 ++ pv.2 ++ q.2)

end

mutual

/-- Specification-side function following the claim's words for C2: the
object with every `Store` node replaced by its raw wrapped value,
container types and shapes preserved. -/
def eraseStoresO : Obj → Obj
  | .plain v => .plain (eraseStoresN v)
  | .store _ w => .plain w

/-- Specification-side erasure on raw values: containers are rebuilt with
erased children; scalars are unchanged. -/
def eraseStoresN : NObj → NObj
  | .list xs => .list (eraseStoresL xs)
  | .tuple xs => .tuple (eraseStoresL xs)
  | .dict kvs => .dict (eraseStoresD kvs)
  | v => v

/-- Specification-side erasure on sequence elements. -/
def eraseStoresL : List Obj → List Obj
  | [] => []
  | x :: xs => eraseStoresO x :: eraseStoresL xs

/-- Specification-side erasure on mapping entries. -/
def eraseStoresD : List (Obj × Obj) → List (Obj × Obj)
  | [] => []
  | (k, v) :: rest => (eraseStoresO k, eraseStoresO v) :: eraseStoresD rest

end

mutual

/-- Specification-side function following the claim's words for C2: the
list of the Stores encountered in the argument tree, in depth-first walk
order (dict keys before values, entries in insertion order). -/
def collectStoresO : Obj → List Sto
  | .plain v => collectStoresN v
  | .store sid w => [(sid, w)]

/-- Specification-side collection on raw values. -/
def collectStoresN : NObj → List Sto
  | .list xs => collectStoresL xs
  | .tuple xs => collectStoresL xs
  | .dict kvs => collectStoresD kvs
  | _ => []

/-- Specification-side collection on sequence elements. -/
def collectStoresL : List Obj → List Sto
  | [] => []
  | x :: xs => collectStoresO x ++ collectStoresL xs

/-- Specification-side collection on mapping entries. -/
def collectStoresD : List (Obj × Obj) → List Sto
  | [] => []
  | (k, v) :: rest => collectStoresO k ++ collectStoresO v ++ collectStoresD rest

end

mutual

/-- Predicate: the object contains no `Store` node anywhere. -/
def storeFreeO : Obj → Bool
  | .plain v => storeFreeN v
  | .store _ _ => false

/-- Predicate: the raw value contains no `Store` node anywhere. -/
def storeFreeN : NObj → Bool
  | .list xs => storeFreeL xs
  | .tuple xs => storeFreeL xs
  | .dict kvs => storeFreeD kvs
  | _ => true

/-- Store-freeness of every element of a sequence. -/
def storeFreeL : List Obj → Bool
  | [] => true
  | x :: xs => storeFreeO x && storeFreeL xs

/-- Store-freeness of every entry of a mapping. -/
def storeFreeD : List (Obj × Obj) → Bool
  | [] => true
  | (k, v) :: rest => storeFreeO k && storeFreeO v && storeFreeD rest

end

mutual

/-- Predicate: no `Store` in the object is nested inside another `Store`,
i.e. every store's wrapped value is store-free (the hypothesis of C2). -/
def nestedFreeO : Obj → Bool
  | .plain v => nestedFreeN v
  | .store _ w => storeFreeN w

/-- Nested-store-freeness of a raw value. -/
def nestedFreeN : NObj → Bool
  | .list xs => nestedFreeL xs
  | .tuple xs => nestedFreeL xs
  | .dict kvs => nestedFreeD kvs
  | _ => true

/-- Nested-store-freeness of every element of a sequence. -/
def nestedFreeL : List Obj → Bool
  | [] => true
  | x :: xs => nestedFreeO x && nestedFreeL xs

/-- Nested-store-freeness of every entry of a mapping. -/
def nestedFreeD : List (Obj × Obj) → Bool
  | [] => true
  | (k, v) :: rest => nestedFreeO k && nestedFreeO v && nestedFreeD rest

end

/-- Modelled from the spec: the `StoreModification` of the missing
`meerkat.interactive.modification` module, section 3 of the spec:
a record of the changed store's id and its new value, consumed in FIFO
order by the propagator. -/
structure StoreModification : Type where
  id : StoreId
  value : Obj

/-- Modelled from the spec: an `OperationNode` (spec section 3) as recorded
by the reactive interceptor of the missing reactivity module: the input
store ids and the output store id of one intercepted call. -/
structure OpNode : Type where
  inputs : List StoreId
  output : StoreId

/-- Modelled from the spec: the ambient system state threaded through the
stateful operations — the id counter of the missing identifiable mixin
(spec: NodeId, "opaque unique identifier"; modelled as a counter, fresh
ids being those at or above `nextId`), the modification queue of the
missing modification module, and the operation nodes recorded by the
missing reactive interceptor. -/
structure Sys : Type where
  nextId : StoreId
  queue : List StoreModification
  ops : List OpNode

/-- A live Store cell: its stable identifier, its current wrapped value
(`self.__wrapped__`), and the `backend_only` flag
(`self._self_backend_only`). -/
structure SCell : Type where
  id : StoreId
  wrapped : Obj
  backendOnly : Bool

/-- Embedding of `Store.__init__` (store.py lines 30-44): a fresh cell
wrapping the given value is allocated under a fresh identifier.  The
iterator-misuse warning of lines 31-37 concerns iterator values, which are
outside the object model. -/
def storeNew (wrapped : Obj) (backendOnly : Bool) (sys : Sys) : SCell × Sys :=
  ({ id := sys.nextId, wrapped := wrapped, backendOnly := backendOnly },
   { sys with nextId := sys.nextId + 1 })

/-- Unwrapping performed by `Store.set` on its argument (store.py lines
67-70): a `Store` argument is replaced by its wrapped value; any other
value passes through. -/
def unwrapIfStore : Obj → Obj
  | .store _ w => .plain w
  | v => v

/-- Embedding of `Store.set` (store.py lines 65-78): the argument is
unwrapped if it is a `Store`, a `StoreModification` carrying the store's
id and the new value is enqueued, and the same cell's wrapped value is
replaced in place — the cell keeps its id and no new cell is allocated
(`nextId` untouched). -/
def storeSet (s : SCell) (newValue : Obj) (sys : Sys) : SCell × Sys :=
  let nv := unwrapIfStore newValue
  ({ s with wrapped := nv },
   { sys with queue := sys.queue ++ [{ id := s.id, value := nv }] })

/-- A finite sequence of `set` calls on one cell, in order. -/
def storeSetMany (s : SCell) (vs : List Obj) (sys : Sys) : SCell × Sys :=
  vs.foldl (fun p v => storeSet p.1 v p.2) (s, sys)

/-- Embedding of `make_store` (store.py lines 506-518): a `Store` value is
returned as is (same object, no allocation); any other value is wrapped in
a fresh `Store` (with the default `backend_only = False` of
`Store.__init__`). -/
def make_store (value : Obj) (sys : Sys) : Obj × Sys :=
  match value with
  | .store sid w => (.store sid w, sys)
  | .plain v => (.store sys.nextId v, { sys with nextId := sys.nextId + 1 })

/-- Model of the CPython builtin `hash` on the raw scalar fragment the
claims exercise: integers of magnitude below `2^61 - 1` hash to
themselves and booleans hash to 0/1, as in CPython.  The hashes of the
remaining values are implementation-defined (string hashing is randomized
per process), so they are left unmodelled (`Option.none`); no claim
evaluates them. -/
def pyHashN : NObj → Option Int
  | .int n => some n
  | .bool b => some (cond b 1 0)
  | _ => Option.none

/-- Builtin `hash` on objects: hashing a `Store` proxy invokes
`Store.__hash__`, which delegates to the hash of the wrapped value
(store.py lines 147-148). -/
def pyHashObj : Obj → Option Int
  | .plain v => pyHashN v
  | .store _ w => pyHashN w

/-- Embedding of `Store.__hash__` (store.py lines 147-148):
`hash(self.__wrapped__)` — the hash of the wrapped value. -/
def storeHash (s : SCell) : Option Int :=
  pyHashObj s.wrapped

/-- Model of Python truthiness (`bool(x)`) on raw values: zero, empty and
`None` values are falsy, everything else in the fragment is truthy. -/
def pyTruthyN : NObj → Bool
  | .pynone => false
  | .int n => decide (n ≠ 0)
  | .bool b => b
  | .str s => decide (s ≠ "")
  | .list xs => !xs.isEmpty
  | .tuple xs => !xs.isEmpty
  | .dict kvs => !kvs.isEmpty

/-- Truthiness of an object: a `Store` proxy delegates to the truthiness
of its wrapped value (the `super().__bool__()` of the object proxy). -/
def pyTruthyObj : Obj → Bool
  | .plain v => pyTruthyN v
  | .store _ w => pyTruthyN w

/-- Warnings emitted by the Store layer, named after the code paths that
issue them. -/
inductive PyWarning : Type where
  | iteratorWrap : PyWarning
  | notReactiveBool : PyWarning
  | outOfPlace (opName : String) : PyWarning

/-- Embedding of `Store.__bool__` (store.py lines 154-165): the wrapped
value's plain boolean coercion is returned in every execution context; a
"bool(store) is not reactive" warning is emitted exactly when the context
is reactive (`is_reactive()`, modelled from the spec as the boolean
context argument).  The function is total: no error is raised for being
used in a reactive scope. -/
def storeBool (isReactiveCtx : Bool) (s : SCell) : Bool × List PyWarning :=
  (pyTruthyObj s.wrapped,
   if isReactiveCtx then [PyWarning.notReactiveBool] else [])

/-- Model of the Python builtin `+` on the homogeneous fragment: integer
addition, string/sequence concatenation.  Mixed-type additions (e.g.
`int + bool`) are outside the fragment and unmodelled (`Option.none` =
`TypeError`); no claim evaluates them. -/
def pyAdd : NObj → NObj → Option NObj
  | .int a, .int b => some (.int (a + b))
  | .str a, .str b => some (.str (a ++ b))
  | .list a, .list b => some (.list (a ++ b))
  | .tuple a, .tuple b => some (.tuple (a ++ b))
  | _, _ => Option.none

/-- Model of the Python builtin `-` on the integer fragment. -/
def pySub : NObj → NObj → Option NObj
  | .int a, .int b => some (.int (a - b))
  | _, _ => Option.none

/-- Model of the Python builtin `*` on the integer fragment; sequence
repetition is outside the fragment. -/
def pyMul : NObj → NObj → Option NObj
  | .int a, .int b => some (.int (a * b))
  | _, _ => Option.none

/-- Model of the Python builtin `&` on the boolean fragment; integer
bitwise conjunction is outside the fragment. -/
def pyBitAnd : NObj → NObj → Option NObj
  | .bool a, .bool b => some (.bool (a && b))
  | _, _ => Option.none

/-- Model of the Python builtin `|` on the boolean fragment. -/
def pyBitOr : NObj → NObj → Option NObj
  | .bool a, .bool b => some (.bool (a || b))
  | _, _ => Option.none

/-- Raw value of an object: a `Store` proxy contributes its wrapped value
(the one-level unpacking the interceptor applies to operands). -/
def rawOf : Obj → NObj
  | .plain v => v
  | .store _ w => w

/-- Store ids contributed by an operand to the recorded dependency edge
set: a `Store` operand contributes its id, a raw operand nothing. -/
def operandStores : Obj → List StoreId
  | .store sid _ => [sid]
  | _ => []

/-- Modelled from the spec: the reactive call interceptor of the missing
reactivity module applied to a binary operator method (spec section 4.3).
Outside a reactive context the underlying operation runs on the raw
operand values and the raw result is returned, with no graph mutation.
Inside a reactive context the raw result is wrapped in a fresh `Store`
and one `OperationNode` from the operand stores to the fresh store is
recorded.  A `TypeError` of the underlying operation (`Option.none`)
propagates and nothing is registered. -/
def reactiveBinop (f : NObj → NObj → Option NObj) (isReactiveCtx : Bool)
    (s : SCell) (other : Obj) (sys : Sys) : Option (Obj × Sys) :=
  match f (rawOf s.wrapped) (rawOf other) with
  | Option.none => Option.none
  | some v =>
    if isReactiveCtx then
      some (.store sys.nextId v,
        { sys with
            nextId := sys.nextId + 1,
            ops := sys.ops ++ [{ inputs := s.id :: operandStores other, output := sys.nextId }] })
    else some (.plain v, sys)

/-- Embedding of `Store.__add__` (store.py lines 171-173): the builtin
addition routed through the reactive interceptor. -/
def storeAdd (isReactiveCtx : Bool) (s : SCell) (other : Obj) (sys : Sys) :
    Option (Obj × Sys) :=
  reactiveBinop pyAdd isReactiveCtx s other sys

/-- Embedding of `Store.__sub__` (store.py lines 175-177). -/
def storeSub (isReactiveCtx : Bool) (s : SCell) (other : Obj) (sys : Sys) :
    Option (Obj × Sys) :=
  reactiveBinop pySub isReactiveCtx s other sys

/-- Embedding of `Store.__mul__` (store.py lines 179-181). -/
def storeMul (isReactiveCtx : Bool) (s : SCell) (other : Obj) (sys : Sys) :
    Option (Obj × Sys) :=
  reactiveBinop pyMul isReactiveCtx s other sys

/-- Embedding of `Store.__and__` (store.py lines 215-217). -/
def storeBitAnd (isReactiveCtx : Bool) (s : SCell) (other : Obj) (sys : Sys) :
    Option (Obj × Sys) :=
  reactiveBinop pyBitAnd isReactiveCtx s other sys

/-- Embedding of `Store.__or__` (store.py lines 223-225). -/
def storeBitOr (isReactiveCtx : Bool) (s : SCell) (other : Obj) (sys : Sys) :
    Option (Obj × Sys) :=
  reactiveBinop pyBitOr isReactiveCtx s other sys

/-- Embedding of `Store.__iadd__` (store.py lines 285-289): an
out-of-place warning is emitted and the call is delegated verbatim to
`Store.__add__` on the same operands. -/
def storeIAdd (isReactiveCtx : Bool) (s : SCell) (other : Obj) (sys : Sys) :
    List PyWarning × Option (Obj × Sys) :=
  ([PyWarning.outOfPlace "iadd"], storeAdd isReactiveCtx s other sys)

/-- Embedding of `Store.__isub__` (store.py lines 291-295). -/
def storeISub (isReactiveCtx : Bool) (s : SCell) (other : Obj) (sys : Sys) :
    List PyWarning × Option (Obj × Sys) :=
  ([PyWarning.outOfPlace "isub"], storeSub isReactiveCtx s other sys)

/-- Embedding of `Store.__imul__` (store.py lines 297-301). -/
def storeIMul (isReactiveCtx : Bool) (s : SCell) (other : Obj) (sys : Sys) :
    List PyWarning × Option (Obj × Sys) :=
  ([PyWarning.outOfPlace "imul"], storeMul isReactiveCtx s other sys)

/-- Embedding of `Store.__iand__` (store.py lines 349-353). -/
def storeIAnd (isReactiveCtx : Bool) (s : SCell) (other : Obj) (sys : Sys) :
    List PyWarning × Option (Obj × Sys) :=
  ([PyWarning.outOfPlace "iand"], storeBitAnd isReactiveCtx s other sys)

/-- Embedding of `Store.__ior__` (store.py lines 361-365). -/
def storeIOr (isReactiveCtx : Bool) (s : SCell) (other : Obj) (sys : Sys) :
    List PyWarning × Option (Obj × Sys) :=
  ([PyWarning.outOfPlace "ior"], storeBitOr isReactiveCtx s other sys)

/-- Modification queue left behind by an operator result: the queue of the
result state, or the unchanged ambient queue when the operation raised. -/
def resultQueue (res : Option (Obj × Sys)) (sys : Sys) : List StoreModification :=
  match res with
  | some (_, sys2) => sys2.queue
  | Option.none => sys.queue

mutual

/-- Model of the Python builtin `==` on objects: a `Store` proxy compares
by its wrapped value (value equality delegates through the proxy). -/
def pyEqO : Obj → Obj → Bool
  | .plain a, .plain b => pyEqN a b
  | .plain a, .store _ b => pyEqN a b
  | .store _ a, .plain b => pyEqN a b
  | .store _ a, .store _ b => pyEqN a b

/-- Model of the Python builtin `==` on raw values.  Numeric cross-type
equalities such as `1 == True` are outside the fragment (dict keys in the
claims are strings).  Mapping equality is entry-wise in insertion order —
adequate because Python forbids unhashable mappings as dict keys, which is
the only place this comparison is consulted. -/
def pyEqN : NObj → NObj → Bool
  | .pynone, .pynone => true
  | .int a, .int b => a == b
  | .bool a, .bool b => a == b
  | .str a, .str b => a == b
  | .list a, .list b => pyEqL a b
  | .tuple a, .tuple b => pyEqL a b
  | .dict a, .dict b => pyEqD a b
  | _, _ => false

/-- Element-wise equality of sequences. -/
def pyEqL : List Obj → List Obj → Bool
  | [], [] => true
  | x :: xs, y :: ys => pyEqO x y && pyEqL xs ys
  | _, _ => false

/-- Entry-wise equality of mappings. -/
def pyEqD : List (Obj × Obj) → List (Obj × Obj) → Bool
  | [], [] => true
  | (k₁, v₁) :: xs, (k₂, v₂) :: ys => pyEqO k₁ k₂ && pyEqO v₁ v₂ && pyEqD xs ys
  | _, _ => false

end

/-- Membership of a key in a modelled dict, under Python `==`. -/
def dictHasKey (kvs : List (Obj × Obj)) (k : Obj) : Bool :=
  kvs.any (fun kv => pyEqO kv.1 k)

/-- Effect of `del d[k]` on a modelled dict: the entry whose key equals
`k` is removed (keys of a well-formed dict are unique, so filtering all
matches coincides with removing the single entry). -/
def dictRemoveKey (kvs : List (Obj × Obj)) (k : Obj) : List (Obj × Obj) :=
  kvs.filter (fun kv => !pyEqO kv.1 k)

/-- Embedding of the body of `Store.__delitem__` (store.py lines 434-439)
on a store wrapping a mapping: the wrapped value is shallow-copied, the
key is deleted from the copy (`KeyError`, i.e. `Option.none`, if absent —
raised before the warning), an out-of-place warning is emitted, and a
fresh `Store` object (`type(self)(obj, backend_only=...)`, hence a fresh
id and the same `backend_only` flag) wrapping the copy is returned.  The
original cell is not written and no modification is enqueued.  Deleting by
index from a wrapped sequence is outside the fragment; the `@_reactive`
decoration is the interceptor modelled from the spec, which outside a
reactive context runs the body directly. -/
def storeDelItem (s : SCell) (k : Obj) (sys : Sys) :
    Option (SCell × Sys × List PyWarning) :=
  match s.wrapped with
  | .plain (.dict kvs) =>
    if dictHasKey kvs k then
      some ({ id := sys.nextId,
              wrapped := .plain (.dict (dictRemoveKey kvs k)),
              backendOnly := s.backendOnly },
            { sys with nextId := sys.nextId + 1 },
            [PyWarning.outOfPlace "delitem"])
    else Option.none
  | _ => Option.none

/-- Concrete argument tree of the C2 scenario: the nested container
argument with storeX (id 10, value 3) under key "a" and a list holding
storeY (id 11, value 4) and the scalar 5 under key "b". -/
def exampleTree : Obj :=
  .plain (.dict
    [(.plain (.str "a"), .store 10 (.int 3)),
     (.plain (.str "b"), .plain (.list [.store 11 (.int 4), .plain (.int 5)]))])

end MeerkatStore

namespace MeerkatCyc

/-!
Heap-indirected model of the argument structures fed to
`_unpack_stores_from_object`, used where the inductive object model cannot
reach: a Python container is a mutable heap object and may, through
mutation, come to contain itself.  Containers live in a heap addressed by
naturals; a value is a scalar, a store, or a reference to a heap
container.  `unpackFuel` is the fuel-indexed semantics of the recursive
Python function: each nesting level of the recursion consumes one unit of
fuel (one Python stack frame), `some` means the call returns, and a result
of `Option.none` for every fuel value means the recursion never
terminates.  The function mirrors the source exactly in having no cycle
check of any kind: its only failure mode is fuel exhaustion.
-/

/-- A value held in a container: a scalar, a `Store` (opaque here — with
the default shallow unpacking a store returns early without recursion, so
its wrapped value is irrelevant to cyclicity), or a reference to a heap
container. -/
inductive HVal : Type where
  | int (n : Int) : HVal
  | store (sid : Nat) : HVal
  | ref (addr : Nat) : HVal
  deriving DecidableEq

/-- A heap container: a sequence or a mapping of values. -/
inductive HCont : Type where
  | list (xs : List HVal) : HCont
  | dict (kvs : List (HVal × HVal)) : HCont

/-- The container heap: addresses to containers. -/
def CHeap : Type := Nat → Option HCont

/-- The raw result structure built by the unpacker. -/
inductive RawVal : Type where
  | int (n : Int) : RawVal
  | storeVal (sid : Nat) : RawVal
  | list (xs : List RawVal) : RawVal
  | dict (kvs : List (RawVal × RawVal)) : RawVal

mutual

/-- Fuel-indexed embedding of `_unpack_stores_from_object` (store.py lines
521-580) with the default `unpack_nested=False`, over heap-indirected
containers: scalars pass through (line 580), a store returns early with
itself collected (line 544), and a container reference is dereferenced and
walked element-wise one recursion level deeper (lines 551-576).  A
dangling reference is outside well-formed heaps and maps to `Option.none`. -/
def unpackFuel (h : CHeap) : Nat → HVal → Option (RawVal × List Nat)
  | 0, _ => Option.none
  | _ + 1, .int n => some (.int n, [])
  | _ + 1, .store sid => some (.storeVal sid, [sid])
  | n + 1, .ref a =>
    match h a with
    | Option.none => Option.none
    | some (.list xs) =>
      match unpackFuelL h n xs with
      | Option.none => Option.none
      | some (us, ss) => some (.list us, ss)
    | some (.dict kvs) =>
      match unpackFuelD h n kvs with
      | Option.none => Option.none
      | some (us, ss) => some (.dict us, ss)

/-- Element-wise walk of a sequence at one recursion depth. -/
def unpackFuelL (h : CHeap) : Nat → List HVal → Option (List RawVal × List Nat)
  | _, [] => some ([], [])
  | n, x :: xs =>
    match unpackFuel h n x with
    | Option.none => Option.none
    | some (u, s₁) =>
      match unpackFuelL h n xs with
      | Option.none => Option.none
      | some (us, s₂) => some (u :: us, s₁ ++ s₂)

/-- Entry-wise walk of a mapping at one recursion depth. -/
def unpackFuelD (h : CHeap) : Nat → List (HVal × HVal) →
    Option (List (RawVal × RawVal) × List Nat)
  | _, [] => some ([], [])
  | n, (k, v) :: rest =>
    match unpackFuel h n k with
    | Option.none => Option.none
    | some (uk, s₁) =>
      match unpackFuel h n v with
      | Option.none => Option.none
      | some (uv, s₂) =>
        match unpackFuelD h n rest with
        | Option.none => Option.none
        | some (us, s₃) => some ((uk, uv) :: us, s₁ ++ s₂ ++ s₃)

end

/-- The canonical cyclic container: the heap whose single container, at
address 0, is a list whose sole element is a reference to itself (in
Python: `x = []; x.append(x)`). -/
def cycHeap : CHeap :=
  fun a => if a = 0 then some (HCont.list [HVal.ref 0]) else Option.none

/-- Values held in the entries of a mapping, keys before values, in
insertion order. -/
def dictVals : List (HVal × HVal) → List HVal
  | [] => []
  | (k, v) :: rest => k :: v :: dictVals rest

/-- Values held directly in a container: the elements of a sequence, the
keys and values of a mapping. -/
def contElems : HCont → List HVal
  | .list xs => xs
  | .dict kvs => dictVals kvs

/-- One containment step of a heap: the container at address `a` holds,
directly among its elements (or keys and values), a reference to address
`b`.  A container transitively contains itself exactly when its address
lies on a cycle of this relation, i.e. `Relation.TransGen (stepsTo h) a a`. -/
def stepsTo (h : CHeap) (a b : Nat) : Prop :=
  ∃ c, h a = some c ∧ HVal.ref b ∈ contElems c

/-- A two-step cycle through two containers (in Python:
`a = []; b = [a]; a.append(b)`): address 0 holds a reference to address 1
and vice versa. -/
def cycHeap2 : CHeap :=
  fun a =>
    if a = 0 then some (HCont.list [HVal.ref 1])
    else if a = 1 then some (HCont.list [HVal.ref 0])
    else Option.none

/-- A self-referential mapping (in Python: `d = {}; d[1] = d`): the
mapping at address 0 holds a reference to itself as the value under key 1. -/
def cycDictHeap : CHeap :=
  fun a => if a = 0 then some (HCont.dict [(HVal.int 1, HVal.ref 0)]) else Option.none

end MeerkatCyc

namespace MeerkatStore

/-- C1: Store identity is stable under mutation — for every cell and every
finite sequence of `set` calls, the identifier is unchanged, and `set`
never constructs a new Store: the allocation counter is untouched (no
fresh id is drawn), the same cell is updated in place. -/
theorem store_set_identity_stable (s : SCell) (vs : List Obj) (sys : Sys) :
    (storeSetMany s vs sys).1.id = s.id ∧
    (storeSetMany s vs sys).2.nextId = sys.nextId := by
  induction vs generalizing s sys with
  | nil => exact ⟨rfl, rfl⟩
  | cons v rest ih =>
    have h := ih { s with wrapped := unwrapIfStore v }
      { sys with queue := sys.queue ++ [{ id := s.id, value := unwrapIfStore v }] }
    simpa [storeSetMany, storeSet] using h

/-- C8: setting a Store to another Store never nests — after
`s.set(Store t)` the cell holds t's raw wrapped value (not the Store
object), keeps its own id, and the enqueued modification carries the
unwrapped value. -/
theorem store_set_unwraps_store (s : SCell) (tid : StoreId) (tw : NObj) (sys : Sys) :
    (storeSet s (.store tid tw) sys).1.wrapped = .plain tw ∧
    (storeSet s (.store tid tw) sys).1.id = s.id ∧
    (storeSet s (.store tid tw) sys).2.queue =
      sys.queue ++ [{ id := s.id, value := .plain tw }] :=
  ⟨rfl, rfl, rfl⟩

/-- C9: `make_store` is idempotent — a Store argument is returned as is
with no allocation, a raw argument is wrapped under a fresh id, and
applying `make_store` to its own result changes nothing. -/
theorem make_store_idempotent (value : Obj) (v : NObj) (sid : StoreId) (w : NObj) (sys : Sys) :
    make_store (.store sid w) sys = (.store sid w, sys) ∧
    make_store (.plain v) sys =
      (.store sys.nextId v, { sys with nextId := sys.nextId + 1 }) ∧
    make_store (make_store value sys).1 (make_store value sys).2 = make_store value sys := by
  refine ⟨rfl, rfl, ?_⟩
  cases value <;> rfl

/-- C6: boolean coercion of a Store returns the plain boolean coercion of
the wrapped value in every execution context (the same concrete boolean
reactively and non-reactively, never a Store), emits the "not reactive"
warning exactly in a reactive context, and raises no error (the function
is total). -/
theorem store_bool_plain_and_warns (r : Bool) (s : SCell) :
    (storeBool r s).1 = pyTruthyObj s.wrapped ∧
    (storeBool true s).1 = (storeBool false s).1 ∧
    (storeBool true s).2 = [PyWarning.notReactiveBool] ∧
    (storeBool false s).2 = [] :=
  ⟨rfl, rfl, rfl, rfl⟩

/-- C5 counterexample: the hash of a Store is not determined by its id and
is not stable across `set` — the cell with id 7 wrapping 1 hashes to 1,
and after `set(2)` the same cell (same id) hashes to 2. -/
theorem store_hash_changes_after_set :
    storeHash ⟨7, .plain (.int 1), false⟩ = some 1 ∧
    (storeSet ⟨7, .plain (.int 1), false⟩ (.plain (.int 2)) ⟨100, [], []⟩).1.id = 7 ∧
    storeHash (storeSet ⟨7, .plain (.int 1), false⟩ (.plain (.int 2)) ⟨100, [], []⟩).1 = some 2 ∧
    storeHash (storeSet ⟨7, .plain (.int 1), false⟩ (.plain (.int 2)) ⟨100, [], []⟩).1 ≠
      storeHash ⟨7, .plain (.int 1), false⟩ := by
  refine ⟨rfl, rfl, rfl, ?_⟩
  simp [storeHash, storeSet, unwrapIfStore, pyHashObj, pyHashN]

/-- C5 amended: the hash used by `Store.__hash__` is value-based, not
identity-based — it delegates to the hash of the wrapped value, so two
cells with equal wrapped values hash alike whatever their ids, and after
`set(v)` the hash is that of the (unwrapped) new value. -/
theorem store_hash_value_based (s₁ s₂ : SCell) (h : s₁.wrapped = s₂.wrapped)
    (s : SCell) (v : Obj) (sys : Sys) :
    storeHash s₁ = storeHash s₂ ∧
    storeHash s = pyHashObj s.wrapped ∧
    storeHash (storeSet s v sys).1 = pyHashObj (unwrapIfStore v) := by
  refine ⟨?_, rfl, rfl⟩
  rw [storeHash, storeHash, h]

/-- Witness for C5 amended: two cells with different ids 1 and 2 but the
same wrapped value 5 satisfy the hypothesis and hash alike. -/
theorem store_hash_value_based_witness :
    (⟨1, .plain (.int 5), false⟩ : SCell).wrapped =
      (⟨2, .plain (.int 5), true⟩ : SCell).wrapped ∧
    (storeHash ⟨1, .plain (.int 5), false⟩ = storeHash ⟨2, .plain (.int 5), true⟩ ∧
      storeHash ⟨3, .plain (.int 4), false⟩ =
        pyHashObj (⟨3, .plain (.int 4), false⟩ : SCell).wrapped ∧
      storeHash (storeSet ⟨3, .plain (.int 4), false⟩ (.plain (.int 9)) ⟨0, [], []⟩).1 =
        pyHashObj (unwrapIfStore (.plain (.int 9)))) :=
  ⟨rfl, store_hash_value_based ⟨1, .plain (.int 5), false⟩ ⟨2, .plain (.int 5), true⟩ rfl
    ⟨3, .plain (.int 4), false⟩ (.plain (.int 9)) ⟨0, [], []⟩⟩

mutual

/-- Default-mode unpacking computes exactly the claim-side erasure and
collection, on every object. -/
theorem unpackObj_false_eq (o : Obj) :
    unpackObj false o = (eraseStoresO o, collectStoresO o) := by
  cases o with
  | plain v =>
    simpa [unpackObj, eraseStoresO, collectStoresO] using unpackNVal_false_eq v
  | store sid w => simp [unpackObj, eraseStoresO, collectStoresO]

/-- Default-mode unpacking of a raw value matches erasure and collection. -/
theorem unpackNVal_false_eq (v : NObj) :
    unpackNVal false v = (.plain (eraseStoresN v), collectStoresN v) := by
  cases v with
  | list xs =>
    simp [unpackNVal, eraseStoresN, collectStoresN, unpackList_false_eq xs]
  | tuple xs =>
    simp [unpackNVal, eraseStoresN, collectStoresN, unpackList_false_eq xs]
  | dict kvs =>
    simp [unpackNVal, eraseStoresN, collectStoresN, unpackDict_false_eq kvs]
  | pynone => simp [unpackNVal, eraseStoresN, collectStoresN]
  | int n => simp [unpackNVal, eraseStoresN, collectStoresN]
  | bool b => simp [unpackNVal, eraseStoresN, collectStoresN]
  | str s => simp [unpackNVal, eraseStoresN, collectStoresN]

/-- Default-mode unpacking of a sequence matches erasure and collection. -/
theorem unpackList_false_eq (xs : List Obj) :
    unpackList false xs = (eraseStoresL xs, collectStoresL xs) := by
  cases xs with
  | nil => simp [unpackList, eraseStoresL, collectStoresL]
  | cons x rest =>
    simp [unpackList, eraseStoresL, collectStoresL, unpackObj_false_eq x,
      unpackList_false_eq rest]

/-- Default-mode unpacking of a mapping matches erasure and collection. -/
theorem unpackDict_false_eq (kvs : List (Obj × Obj)) :
    unpackDict false kvs = (eraseStoresD kvs, collectStoresD kvs) := by
  cases kvs with
  | nil => simp [unpackDict, eraseStoresD, collectStoresD]
  | cons kv rest =>
    obtain ⟨k, v⟩ := kv
    simp [unpackDict, eraseStoresD, collectStoresD, unpackObj_false_eq k,
      unpackObj_false_eq v, unpackDict_false_eq rest]

end

mutual

/-- Erasure of an object with no nested Stores is store-free. -/
theorem eraseStoresO_storeFree (o : Obj) (h : nestedFreeO o = true) :
    storeFreeO (eraseStoresO o) = true := by
  cases o with
  | plain v =>
    have hv : nestedFreeN v = true := by simpa [nestedFreeO] using h
    simpa [eraseStoresO, storeFreeO] using eraseStoresN_storeFree v hv
  | store sid w =>
    simpa [eraseStoresO, storeFreeO, nestedFreeO] using h

/-- Erasure of a raw value with no nested Stores is store-free. -/
theorem eraseStoresN_storeFree (v : NObj) (h : nestedFreeN v = true) :
    storeFreeN (eraseStoresN v) = true := by
  cases v with
  | list xs =>
    have hx : nestedFreeL xs = true := by simpa [nestedFreeN] using h
    simpa [eraseStoresN, storeFreeN] using eraseStoresL_storeFree xs hx
  | tuple xs =>
    have hx : nestedFreeL xs = true := by simpa [nestedFreeN] using h
    simpa [eraseStoresN, storeFreeN] using eraseStoresL_storeFree xs hx
  | dict kvs =>
    have hx : nestedFreeD kvs = true := by simpa [nestedFreeN] using h
    simpa [eraseStoresN, storeFreeN] using eraseStoresD_storeFree kvs hx
  | pynone => simp [eraseStoresN, storeFreeN]
  | int n => simp [eraseStoresN, storeFreeN]
  | bool b => simp [eraseStoresN, storeFreeN]
  | str s => simp [eraseStoresN, storeFreeN]

/-- Erasure of a sequence with no nested Stores is store-free. -/
theorem eraseStoresL_storeFree (xs : List Obj) (h : nestedFreeL xs = true) :
    storeFreeL (eraseStoresL xs) = true := by
  cases xs with
  | nil => simp [eraseStoresL, storeFreeL]
  | cons x rest =>
    rw [nestedFreeL, Bool.and_eq_true] at h
    simp [eraseStoresL, storeFreeL, eraseStoresO_storeFree x h.1,
      eraseStoresL_storeFree rest h.2]

/-- Erasure of a mapping with no nested Stores is store-free. -/
theorem eraseStoresD_storeFree (kvs : List (Obj × Obj)) (h : nestedFreeD kvs = true) :
    storeFreeD (eraseStoresD kvs) = true := by
  cases kvs with
  | nil => simp [eraseStoresD, storeFreeD]
  | cons kv rest =>
    obtain ⟨k, v⟩ := kv
    rw [nestedFreeD, Bool.and_eq_true, Bool.and_eq_true] at h
    simp [eraseStoresD, storeFreeD, eraseStoresO_storeFree k h.1.1,
      eraseStoresO_storeFree v h.1.2, eraseStoresD_storeFree rest h.2]

end

/-- C2: on any argument tree of scalars, Stores and containers with no
Store nested inside another Store, default-mode unpacking returns the tree
with the same container types and shapes in which every Store is replaced
by its raw wrapped value (the result is store-free), together with
exactly the Stores encountered, in walk order. -/
theorem unpack_stores_shape_and_deps (o : Obj) (h : nestedFreeO o = true) :
    unpackObj false o = (eraseStoresO o, collectStoresO o) ∧
    storeFreeO (unpackObj false o).1 = true := by
  refine ⟨unpackObj_false_eq o, ?_⟩
  rw [unpackObj_false_eq o]
  exact eraseStoresO_storeFree o h

/-- Witness for C2 at the claim's own scenario: the nested container
argument with storeX under "a" and [storeY, 5] under "b" has no nested
Stores, and unpacks to the raw tree with both stores collected in walk
order. -/
theorem unpack_stores_shape_and_deps_witness :
    nestedFreeO exampleTree = true ∧
    (unpackObj false exampleTree = (eraseStoresO exampleTree, collectStoresO exampleTree) ∧
      storeFreeO (unpackObj false exampleTree).1 = true) ∧
    unpackObj false exampleTree =
      (.plain (.dict
        [(.plain (.str "a"), .plain (.int 3)),
         (.plain (.str "b"), .plain (.list [.plain (.int 4), .plain (.int 5)]))]),
       [(10, .int 3), (11, .int 4)]) := by
  refine ⟨?_, unpack_stores_shape_and_deps exampleTree ?_, ?_⟩
  · simp [exampleTree, nestedFreeO, nestedFreeN, nestedFreeL, nestedFreeD, storeFreeN]
  · simp [exampleTree, nestedFreeO, nestedFreeN, nestedFreeL, nestedFreeD, storeFreeN]
  · simp [exampleTree, unpackObj, unpackNVal, unpackList, unpackDict]

/-- C3: Store unwrapping is shallow by default — with
`unpack_nested = False` a Store returns as its raw wrapped value with only
itself collected, even when the wrapped value is a container holding
further Stores (illustrated: the inner store 2 stays wrapped and
uncollected), and those inner Stores are unpacked only with
`unpack_nested = True`. -/
theorem unpack_stores_shallow_default (sid : StoreId) (w : NObj) :
    unpackObj false (.store sid w) = (.plain w, [(sid, w)]) ∧
    unpackObj false (.store 1 (.list [.store 2 (.int 5)])) =
      (.plain (.list [.store 2 (.int 5)]), [(1, .list [.store 2 (.int 5)])]) ∧
    unpackObj true (.store 1 (.list [.store 2 (.int 5)])) =
      (.plain (.list [.plain (.int 5)]), [(2, .int 5), (1, .list [.store 2 (.int 5)])]) := by
  refine ⟨?_, ?_, ?_⟩ <;> simp [unpackObj, unpackList]

/-- An intercepted binary operator never touches the modification queue:
the wrapped value of no store is mutated through the `set` pathway. -/
theorem reactiveBinop_preserves_queue (f : NObj → NObj → Option NObj) (r : Bool)
    (s : SCell) (other : Obj) (sys : Sys) :
    resultQueue (reactiveBinop f r s other sys) sys = sys.queue := by
  rw [reactiveBinop]
  cases f (rawOf s.wrapped) (rawOf other) with
  | none => rfl
  | some v => cases r <;> rfl

/-- C7: every in-place operator of the Store emits an out-of-place warning
and returns exactly the result of the corresponding reactive out-of-place
operator applied to the same operands, in every execution context; and the
operation leaves every store's wrapped value unchanged — the modification
queue, the only mutation pathway, is untouched. -/
theorem inplace_ops_delegate_out_of_place (r : Bool) (s : SCell) (other : Obj) (sys : Sys) :
    ((storeIAdd r s other sys).2 = storeAdd r s other sys ∧
      (storeIAdd r s other sys).1 = [PyWarning.outOfPlace "iadd"] ∧
      resultQueue (storeAdd r s other sys) sys = sys.queue) ∧
    ((storeISub r s other sys).2 = storeSub r s other sys ∧
      (storeISub r s other sys).1 = [PyWarning.outOfPlace "isub"] ∧
      resultQueue (storeSub r s other sys) sys = sys.queue) ∧
    ((storeIMul r s other sys).2 = storeMul r s other sys ∧
      (storeIMul r s other sys).1 = [PyWarning.outOfPlace "imul"] ∧
      resultQueue (storeMul r s other sys) sys = sys.queue) ∧
    ((storeIAnd r s other sys).2 = storeBitAnd r s other sys ∧
      (storeIAnd r s other sys).1 = [PyWarning.outOfPlace "iand"] ∧
      resultQueue (storeBitAnd r s other sys) sys = sys.queue) ∧
    ((storeIOr r s other sys).2 = storeBitOr r s other sys ∧
      (storeIOr r s other sys).1 = [PyWarning.outOfPlace "ior"] ∧
      resultQueue (storeBitOr r s other sys) sys = sys.queue) :=
  ⟨⟨rfl, rfl, reactiveBinop_preserves_queue pyAdd r s other sys⟩,
   ⟨rfl, rfl, reactiveBinop_preserves_queue pySub r s other sys⟩,
   ⟨rfl, rfl, reactiveBinop_preserves_queue pyMul r s other sys⟩,
   ⟨rfl, rfl, reactiveBinop_preserves_queue pyBitAnd r s other sys⟩,
   ⟨rfl, rfl, reactiveBinop_preserves_queue pyBitOr r s other sys⟩⟩

/-- C10: `Store.__delitem__` is out-of-place and frame-preserving — on a
store wrapping a mapping that contains the key, it emits the out-of-place
warning and returns a fresh Store (a freshly allocated id, hence a new
object distinct from the original cell, with the `backend_only` flag
preserved) wrapping a copy of the mapping with the key removed, while the
original cell's entry is untouched: no modification is enqueued for it and
its own wrapped value and id do not appear updated anywhere in the result. -/
theorem store_delitem_out_of_place (s : SCell) (kvs : List (Obj × Obj)) (k : Obj) (sys : Sys)
    (hw : s.wrapped = .plain (.dict kvs)) (hk : dictHasKey kvs k = true)
    (hid : s.id < sys.nextId) :
    storeDelItem s k sys =
      some ({ id := sys.nextId,
              wrapped := .plain (.dict (dictRemoveKey kvs k)),
              backendOnly := s.backendOnly },
            { sys with nextId := sys.nextId + 1 },
            [PyWarning.outOfPlace "delitem"]) ∧
    s.id + 1 ≤ sys.nextId ∧
    dictHasKey (dictRemoveKey kvs k) k = false := by
  refine ⟨?_, hid, ?_⟩
  · rw [storeDelItem, hw]
    simp [hk]
  · simp [dictHasKey, dictRemoveKey, List.any_eq_true, List.mem_filter]

/-- Witness for C10: deleting the key "a" from the cell with id 0 wrapping
the two-entry mapping, under allocation counter 5, yields the fresh cell
with id 5, the same backend-only flag, and the one-entry copy. -/
theorem store_delitem_out_of_place_witness :
    (⟨0, .plain (.dict [(.plain (.str "a"), .plain (.int 1)),
        (.plain (.str "b"), .plain (.int 2))]), true⟩ : SCell).wrapped =
      .plain (.dict [(.plain (.str "a"), .plain (.int 1)),
        (.plain (.str "b"), .plain (.int 2))]) ∧
    dictHasKey [(.plain (.str "a"), .plain (.int 1)),
        (.plain (.str "b"), .plain (.int 2))] (.plain (.str "a")) = true ∧
    (⟨0, .plain (.dict [(.plain (.str "a"), .plain (.int 1)),
        (.plain (.str "b"), .plain (.int 2))]), true⟩ : SCell).id < (⟨5, [], []⟩ : Sys).nextId ∧
    (storeDelItem ⟨0, .plain (.dict [(.plain (.str "a"), .plain (.int 1)),
        (.plain (.str "b"), .plain (.int 2))]), true⟩ (.plain (.str "a")) ⟨5, [], []⟩ =
      some ({ id := 5,
              wrapped := .plain (.dict (dictRemoveKey
                [(.plain (.str "a"), .plain (.int 1)),
                 (.plain (.str "b"), .plain (.int 2))] (.plain (.str "a")))),
              backendOnly := true },
            ⟨6, [], []⟩,
            [PyWarning.outOfPlace "delitem"]) ∧
      (0 : Nat) + 1 ≤ 5 ∧
      dictHasKey (dictRemoveKey
        [(.plain (.str "a"), .plain (.int 1)),
         (.plain (.str "b"), .plain (.int 2))] (.plain (.str "a"))) (.plain (.str "a")) = false) := by
  refine ⟨rfl, ?hk, ?hid, ?main⟩
  case hk => simp [dictHasKey, pyEqO, pyEqN]
  case hid => decide
  case main =>
    exact store_delitem_out_of_place
      ⟨0, .plain (.dict [(.plain (.str "a"), .plain (.int 1)),
        (.plain (.str "b"), .plain (.int 2))]), true⟩
      [(.plain (.str "a"), .plain (.int 1)), (.plain (.str "b"), .plain (.int 2))]
      (.plain (.str "a")) ⟨5, [], []⟩ rfl (by simp [dictHasKey, pyEqO, pyEqN]) (by decide)

end MeerkatStore

namespace MeerkatCyc

/-- If one element of a sequence fails to unpack at a given depth, the
whole sequence walk fails at that depth. -/
theorem unpackFuelL_elem_none (h : CHeap) (n : Nat) (x : HVal) (xs : List HVal)
    (hx : x ∈ xs) (hn : unpackFuel h n x = Option.none) :
    unpackFuelL h n xs = Option.none := by
  induction xs with
  | nil => cases hx
  | cons y ys ih =>
    rcases List.mem_cons.mp hx with hxy | hmem
    · subst hxy
      simp [unpackFuelL, hn]
    · rw [unpackFuelL]
      cases hy : unpackFuel h n y with
      | none => rfl
      | some p =>
        obtain ⟨u, s₁⟩ := p
        rw [ih hmem]

/-- If a key or value of a mapping fails to unpack at a given depth, the
whole mapping walk fails at that depth. -/
theorem unpackFuelD_elem_none (h : CHeap) (n : Nat) (x : HVal) (kvs : List (HVal × HVal))
    (hx : x ∈ dictVals kvs) (hn : unpackFuel h n x = Option.none) :
    unpackFuelD h n kvs = Option.none := by
  induction kvs with
  | nil => simp [dictVals] at hx
  | cons kv rest ih =>
    obtain ⟨k, v⟩ := kv
    rw [dictVals] at hx
    rcases List.mem_cons.mp hx with rfl | hx1
    · simp [unpackFuelD, hn]
    · rcases List.mem_cons.mp hx1 with rfl | hx2
      · cases hk : unpackFuel h n k with
        | none => simp [unpackFuelD, hk]
        | some p =>
          obtain ⟨uk, s₁⟩ := p
          simp [unpackFuelD, hk, hn]
      · cases hk : unpackFuel h n k with
        | none => simp [unpackFuelD, hk]
        | some p =>
          obtain ⟨uk, s₁⟩ := p
          cases hv : unpackFuel h n v with
          | none => simp [unpackFuelD, hk, hv]
          | some q =>
            obtain ⟨uv, s₂⟩ := q
            simp [unpackFuelD, hk, hv, ih hx2]

/-- Divergence propagates one containment step backwards: if the
container at `a` directly holds a reference to `b` (as a sequence element
or a mapping key or value) and unpacking `b` fails at depth `n`, then
unpacking `a` fails at depth `n + 1`. -/
theorem unpackFuel_step_none (h : CHeap) (a b : Nat) (hab : stepsTo h a b)
    (n : Nat) (hb : unpackFuel h n (.ref b) = Option.none) :
    unpackFuel h (n + 1) (.ref a) = Option.none := by
  obtain ⟨c, hc, hmem⟩ := hab
  cases c with
  | list xs =>
    rw [unpackFuel, hc]
    simp [unpackFuelL_elem_none h n (HVal.ref b) xs (by simpa [contElems] using hmem) hb]
  | dict kvs =>
    rw [unpackFuel, hc]
    simp [unpackFuelD_elem_none h n (HVal.ref b) kvs (by simpa [contElems] using hmem) hb]

/-- An address on a containment cycle never unpacks, whatever the fuel:
every unit of fuel only carries the walk one step along the cycle, on
which every address is again on a cycle. -/
theorem unpackFuel_cycle_none (h : CHeap) :
    ∀ n a, Relation.TransGen (stepsTo h) a a → unpackFuel h n (.ref a) = Option.none := by
  intro n
  induction n with
  | zero =>
    intro a _
    simp [unpackFuel]
  | succ n ih =>
    intro a hcyc
    obtain ⟨b, hab, hba⟩ := Relation.TransGen.head'_iff.mp hcyc
    have hbb : Relation.TransGen (stepsTo h) b b := Relation.TransGen.tail' hba hab
    exact unpackFuel_step_none h a b hab n (ih b hbb)

/-- C4 counterexample: on the canonical cyclic container (the list that
contains itself), unpacking does not fail fast with a structural-cycle
error — there is no such error in the code — nor terminate: at recursion
budgets 1, 100 and 100000 alike the walk is still recursing and yields
nothing (in Python, unbounded recursion ending in a `RecursionError`). -/
theorem unpack_cyclic_never_returns :
    unpackFuel cycHeap 1 (HVal.ref 0) = Option.none ∧
    unpackFuel cycHeap 100 (HVal.ref 0) = Option.none ∧
    unpackFuel cycHeap 100000 (HVal.ref 0) = Option.none := by
  have hcyc : Relation.TransGen (stepsTo cycHeap) 0 0 :=
    Relation.TransGen.single ⟨HCont.list [HVal.ref 0], rfl, List.mem_singleton.mpr rfl⟩
  have h := unpackFuel_cycle_none cycHeap
  exact ⟨h 1 0 hcyc, h 100 0 hcyc, h 100000 0 hcyc⟩

/-- C4 amended: `_unpack_stores_from_object` performs no cycle detection:
on any container that transitively contains itself — a container whose
heap address lies on a cycle of the direct-containment relation, covering
self-referential sequences and mappings and multi-step cycles alike — it
recurses without bound: for every recursion budget the unpacker returns
nothing (in Python, the recursion limit is hit and a `RecursionError`,
not a `StructuralCycle` error, surfaces), and, the call never returning,
no Store is collected and no graph entity is registered. -/
theorem unpack_cyclic_diverges (h : CHeap) (a : Nat)
    (hcyc : Relation.TransGen (stepsTo h) a a) :
    ∀ n, unpackFuel h n (.ref a) = Option.none :=
  fun n => unpackFuel_cycle_none h n a hcyc

/-- Witness for C4 amended at three concrete cyclic containers: the list
containing itself, the two-list cycle `a = [b]; b = [a]` (a two-step
containment cycle), and the mapping holding itself as a value — each is
on a containment cycle and each yields nothing at fuel 5. -/
theorem unpack_cyclic_diverges_witness :
    Relation.TransGen (stepsTo cycHeap) 0 0 ∧
    unpackFuel cycHeap 5 (HVal.ref 0) = Option.none ∧
    Relation.TransGen (stepsTo cycHeap2) 0 0 ∧
    unpackFuel cycHeap2 5 (HVal.ref 0) = Option.none ∧
    Relation.TransGen (stepsTo cycDictHeap) 0 0 ∧
    unpackFuel cycDictHeap 5 (HVal.ref 0) = Option.none := by
  have h1 : Relation.TransGen (stepsTo cycHeap) 0 0 :=
    Relation.TransGen.single ⟨HCont.list [HVal.ref 0], rfl, List.mem_singleton.mpr rfl⟩
  have h2 : Relation.TransGen (stepsTo cycHeap2) 0 0 :=
    Relation.TransGen.head
      ⟨HCont.list [HVal.ref 1], rfl, List.mem_singleton.mpr rfl⟩
      (Relation.TransGen.single ⟨HCont.list [HVal.ref 0], rfl, List.mem_singleton.mpr rfl⟩)
  have h3 : Relation.TransGen (stepsTo cycDictHeap) 0 0 :=
    Relation.TransGen.single
      ⟨HCont.dict [(HVal.int 1, HVal.ref 0)], rfl, by simp [contElems, dictVals]⟩
  exact ⟨h1, unpack_cyclic_diverges cycHeap 0 h1 5,
    h2, unpack_cyclic_diverges cycHeap2 0 h2 5,
    h3, unpack_cyclic_diverges cycDictHeap 0 h3 5⟩

end MeerkatCyc
